import Mathlib

/-!
Shallow embedding of the oscillation-analysis core of the rf603_logger
repository (src/dekrement.py, class RF603OscillationAnalyzer; the module
src/rf603_logger.py holds a near-duplicate of the same analyzer).

Modelling conventions:
* samples are exact rationals in place of floating point;
* the decrement mathematics, which the source computes with numpy
  logarithms and square roots, is modelled over the real numbers, and the
  one place where IEEE semantics is observable (numpy evaluates log 0 to
  negative infinity) is modelled separately over the extended reals;
* the scipy-based peak detection (_find_peaks_adaptive together with the
  savgol_filter smoothing step, dekrement.py lines 286-297 and 350-416) is
  kept abstract as an explicit detect parameter: no verified statement
  depends on the values it returns, only on how its output competes with
  the stored corrected peaks;
* python methods that mutate the analyzer object are state transformers
  AnalyzerState to Bool times AnalyzerState, the Bool being the source's
  returned success flag.
-/

/-- One row of the analyzer's dataframe: a timestamp in seconds
(column Временная_метка), the raw distance in millimeters
(column Расстояние_мм), and the normalized distance column
(Расстояние_норм) added by normalize_data. -/
structure Row where
  timestamp : ℚ
  dist : ℚ
  distNorm : ℚ
deriving DecidableEq, Repr

instance : Inhabited Row := ⟨⟨0, 0, 0⟩⟩

/-- The mutable state of RF603OscillationAnalyzer (dekrement.py lines
12-23): raw data, the active processed series, the frozen original
normalized series, crop provenance, the manually corrected peak set and
the cached analysis results. -/
structure AnalyzerState where
  data : Option (List Row)
  processed_data : Option (List Row)
  original_processed_data : Option (List Row)
  oscillation_start : ℕ
  oscillation_end : ℕ
  corrected_peaks : Option (List ℕ)
  current_period : Option ℚ
  current_frequency : Option ℚ
  log_decrement : Option ℝ
  loss_factor : Option ℝ
  damping_ratio : Option ℝ

/-- The freshly constructed analyzer (dekrement.py lines 12-23). -/
def initState : AnalyzerState :=
  ⟨none, none, none, 0, 0, none, none, none, none, none, none⟩

/-- The six pieces of derived state that the series-mutating operations
reset (dekrement.py lines 56-62, 78-84, 131-137). -/
def derivedCleared (s : AnalyzerState) : Prop :=
  s.corrected_peaks = none ∧ s.current_period = none ∧
  s.current_frequency = none ∧ s.log_decrement = none ∧
  s.loss_factor = none ∧ s.damping_ratio = none

/-- dekrement.py load_csv (lines 25-36): parses and stores the rows.  The
source reports failure on an empty or malformed file (the load prints
summary statistics that raise on an empty frame and the exception is
caught); an empty row list is modelled as that failure, leaving the
state unchanged. -/
def load_csv (rows : List Row) (s : AnalyzerState) : Bool × AnalyzerState :=
  if rows = [] then (false, s) else (true, { s with data := some rows })

/-- The normalization map of dekrement.py normalize_data (lines 47-51):
subtract the first distance from every distance to fill the normalized
column. -/
def normalizeRows (rows : List Row) : List Row :=
  rows.map (fun r => { r with distNorm := r.dist - (rows.headD default).dist })

/-- dekrement.py normalize_data (lines 38-69): copies the raw data,
subtracts the first distance from every distance to build the normalized
column, freezes the result as the original baseline, and clears the
corrected peaks and every cached analysis value (lines 56-62). -/
def normalize_data (s : AnalyzerState) : Bool × AnalyzerState :=
  match s.data with
  | none => (false, s)
  | some rows =>
    let pr := normalizeRows rows
    (true, { s with
      processed_data := some pr,
      original_processed_data := some pr,
      corrected_peaks := none,
      current_period := none,
      current_frequency := none,
      log_decrement := none,
      loss_factor := none,
      damping_ratio := none })

/-- dekrement.py reset_to_original (lines 71-90): restores the active
series to the frozen baseline, resets the crop provenance and clears the
corrected peaks and every cached analysis value (lines 78-84). -/
def reset_to_original (s : AnalyzerState) : Bool × AnalyzerState :=
  match s.original_processed_data with
  | none => (false, s)
  | some orig =>
    (true, { s with
      processed_data := some orig,
      oscillation_start := 0,
      oscillation_end := orig.length - 1,
      corrected_peaks := none,
      current_period := none,
      current_frequency := none,
      log_decrement := none,
      loss_factor := none,
      damping_ratio := none })

/-- dekrement.py crop_by_points (lines 116-149): clamps the requested
bounds (start_idx = max(0, min(start_point, n-1)), end_idx =
max(start_idx+1, min(end_point, n-1))), replaces the active series with
the inclusive slice iloc[start_idx : end_idx+1] re-indexed from zero,
records the absolute clamped bounds as provenance, and clears the
corrected peaks and every cached analysis value (lines 131-137). -/
def crop_by_points (s : AnalyzerState) (start_point end_point : ℤ) :
    Bool × AnalyzerState :=
  match s.processed_data with
  | none => (false, s)
  | some rows =>
    let n : ℤ := rows.length
    let start_idx : ℤ := max 0 (min start_point (n - 1))
    let end_idx : ℤ := max (start_idx + 1) (min end_point (n - 1))
    let cropped := (rows.drop start_idx.toNat).take
      (end_idx.toNat + 1 - start_idx.toNat)
    (true, { s with
      processed_data := some cropped,
      oscillation_start := start_idx.toNat,
      oscillation_end := end_idx.toNat,
      corrected_peaks := none,
      current_period := none,
      current_frequency := none,
      log_decrement := none,
      loss_factor := none,
      damping_ratio := none })

/-- dekrement.py crop_by_time (lines 92-114): maps the time bounds to the
first index with timestamp at least start_time and the last index with
timestamp at most end_time, reports failure when either mask is empty
(leaving the state unchanged), and otherwise delegates to
crop_by_points. -/
def crop_by_time (s : AnalyzerState) (start_time end_time : ℚ) :
    Bool × AnalyzerState :=
  match s.processed_data with
  | none => (false, s)
  | some rows =>
    match rows.findIdx? (fun r => decide (start_time ≤ r.timestamp)),
          rows.reverse.findIdx? (fun r => decide (r.timestamp ≤ end_time)) with
    | some i, some k => crop_by_points s (i : ℤ) ((rows.length - 1 - k : ℕ) : ℤ)
    | some _, none => (false, s)
    | none, _ => (false, s)

/-- Data contract of dekrement.py manual_peak_correction (lines 418-501):
the interactive matplotlib session is a UI concern; its state effect is
to store the user-edited, sorted peak index list in corrected_peaks
(line 499).  With no processed data the source returns early without
storing anything (line 422). -/
def manual_peak_correction (s : AnalyzerState) (peaks : List ℕ) :
    AnalyzerState :=
  match s.processed_data with
  | none => s
  | some _ => { s with corrected_peaks := some peaks }

/-- The 10-sample window starting at index i, distances[i:i+10]
(dekrement.py line 164). -/
def scanWindow (ds : List ℚ) (i : ℕ) : List ℚ := (ds.drop i).take 10

/-- np.max over a window (the windows inspected by the source are always
nonempty, so the seed value is irrelevant). -/
def listMax (l : List ℚ) : ℚ := l.foldl max (l.headD 0)

/-- np.min over a window. -/
def listMin (l : List ℚ) : ℚ := l.foldl min (l.headD 0)

/-- np.max(window) - np.min(window) for the 10-sample window starting at
index i (dekrement.py line 165). -/
def windowSpread (ds : List ℚ) (i : ℕ) : ℚ :=
  listMax (scanWindow ds i) - listMin (scanWindow ds i)

/-- The scanning loop of find_release_point: return i - 5 (truncated
subtraction realises python's max(0, i-5)) at the first candidate index
whose window spread exceeds the threshold, else 0. -/
def releaseScan (ds : List ℚ) (t : ℚ) : List ℕ → ℕ
  | [] => 0
  | i :: rest => if t < windowSpread ds i then i - 5 else releaseScan ds t rest

/-- dekrement.py find_release_point (lines 151-171): scans the candidate
indices of python range(1, len(distances) - 10), that is 1 up to
len - 11 inclusive, and returns max(0, i-5) for the first index i whose
10-sample window has spread strictly above the threshold; returns the
sentinel 0 when no scanned window qualifies. -/
def find_release_point (ds : List ℚ) (threshold : ℚ) : ℕ :=
  releaseScan ds threshold (List.range' 1 (ds.length - 11))

/-- State-level wrapper of find_release_point: the source reads the
normalized distance column of the processed data and returns 0 when
there is none (dekrement.py lines 156-159). -/
def find_release_point_state (s : AnalyzerState) (threshold : ℚ) : ℕ :=
  match s.processed_data with
  | none => 0
  | some rows => find_release_point (rows.map Row.distNorm) threshold

/-- Ascending sort, as performed inside np.percentile. -/
def sortedAsc (l : List ℚ) : List ℚ := l.insertionSort (fun a b => a ≤ b)

/-- np.percentile with the default linear interpolation between closest
ranks: rank = (n-1) * q / 100, k = floor rank, result =
s[k] + (rank - k) * (s[k+1] - s[k]) over the ascending sort s
(dekrement.py lines 315-316). -/
def percentile (l : List ℚ) (q : ℚ) : ℚ :=
  let s := sortedAsc l
  let rank : ℚ := ((s.length : ℚ) - 1) * q / 100
  let k : ℕ := (Int.floor rank).toNat
  let d : ℚ := rank - ((Int.floor rank : ℤ) : ℚ)
  s.getD k 0 + d * (s.getD (k + 1) (s.getD k 0) - s.getD k 0)

/-- Q1 - 1.5 * IQR of the period list (dekrement.py line 318). -/
def lower_bound (periods : List ℚ) : ℚ :=
  percentile periods 25 - 3/2 * (percentile periods 75 - percentile periods 25)

/-- Q3 + 1.5 * IQR of the period list (dekrement.py line 319). -/
def upper_bound (periods : List ℚ) : ℚ :=
  percentile periods 75 + 3/2 * (percentile periods 75 - percentile periods 25)

/-- The interquartile outlier filter of calculate_period_frequency_improved
(dekrement.py lines 312-323): with at least 3 periods keep only those in
the closed band between the bounds, with fewer keep all. -/
def filter_outliers (periods : List ℚ) : List ℚ :=
  if 3 ≤ periods.length then
    periods.filter
      (fun p => decide (lower_bound periods ≤ p ∧ p ≤ upper_bound periods))
  else periods

/-- Consecutive inter-peak periods timestamps[peaks[i+1]] -
timestamps[peaks[i]] (dekrement.py lines 306-309); out-of-range indices
read the total default 0 (the source only passes in-range indices). -/
def periodsOf (timestamps : List ℚ) (peaks : List ℕ) : List ℚ :=
  (peaks.zip peaks.tail).map
    (fun pr => timestamps.getD pr.2 0 - timestamps.getD pr.1 0)

/-- The peak-source selection of calculate_period_frequency_improved
(dekrement.py lines 282-297): the stored corrected peaks are used exactly
when present with at least 2 entries, otherwise the algorithmic
detection output is used. -/
def selectPeaks (corrected : Option (List ℕ)) (detected : List ℕ) : List ℕ :=
  match corrected with
  | some cp => if 2 ≤ cp.length then cp else detected
  | none => detected

/-- The period and frequency estimation section of
calculate_period_frequency_improved (dekrement.py lines 299-331): absent
below 2 peaks; otherwise the mean of the outlier-filtered periods
(falling back to the unfiltered list when filtering empties it), with
frequency 1/period when the period is positive and 0 otherwise. -/
def estimate_period (timestamps : List ℚ) (peaks : List ℕ) :
    Option (ℚ × ℚ) :=
  if peaks.length < 2 then none
  else
    let periods := periodsOf timestamps peaks
    let fp := filter_outliers periods
    let fp2 := if fp = [] then periods else fp
    let avg := fp2.sum / (fp2.length : ℚ)
    some (avg, if 0 < avg then 1 / avg else 0)

/-- The per-pair logarithmic decrements of calculate_logarithmic_decrement
(dekrement.py lines 230-238): for each pair of consecutive peak
amplitudes, when the absolute value of the later one is positive, take
log of the ratio of absolute values; pairs failing the guard are
skipped. -/
noncomputable def decrements (amps : List ℝ) : List ℝ :=
  (amps.zip amps.tail).filterMap
    (fun pr => if 0 < |pr.2| then some (Real.log (|pr.1| / |pr.2|)) else none)

/-- Formula 3.2 used at dekrement.py line 248: the damping ratio computed
from an average decrement. -/
noncomputable def dampingRatioOf (d : ℝ) : ℝ :=
  d / Real.sqrt (4 * Real.pi ^ 2 + d ^ 2)

/-- dekrement.py calculate_logarithmic_decrement (lines 214-267) on the
list of peak amplitudes: absent below 2 peaks or when every pair was
skipped; otherwise the mean decrement, the damping ratio and the loss
factor 2 * damping ratio (lines 240-251). -/
noncomputable def calculate_logarithmic_decrement (amps : List ℝ) :
    Option (ℝ × ℝ × ℝ) :=
  if amps.length < 2 then none
  else
    let ds := decrements amps
    if ds = [] then none
    else
      let avg := ds.sum / (ds.length : ℝ)
      some (avg, dampingRatioOf avg, 2 * dampingRatioOf avg)

/-- np.log with IEEE behaviour at zero made observable: numpy evaluates
log 0 to negative infinity, modelled as the bottom of the extended
reals.  Only applied to nonnegative ratios of absolute values. -/
noncomputable def npLogE (x : ℝ) : EReal :=
  if x = 0 then ⊥ else ((Real.log x : ℝ) : EReal)

/-- The per-pair decrements with the IEEE value of the logarithm kept
(dekrement.py lines 230-238): the guard only inspects the later
amplitude of each pair, so a zero earlier amplitude still produces a
logarithm of a zero ratio. -/
noncomputable def decrementsE (amps : List ℝ) : List EReal :=
  (amps.zip amps.tail).filterMap
    (fun pr => if 0 < |pr.2| then some (npLogE (|pr.1| / |pr.2|)) else none)

/-- np.mean of the IEEE-valued decrement list, sum times 1/length in the
extended reals (dekrement.py line 245). -/
noncomputable def avg_decrementE (amps : List ℝ) : EReal :=
  (decrementsE amps).sum *
    (((1 : ℝ) / ((decrementsE amps).length : ℝ) : ℝ) : EReal)

/-- State-level calculate_logarithmic_decrement (dekrement.py lines
214-267): reads the amplitudes at the peak indices from the normalized
distance column, and on success caches decrement, damping ratio and loss
factor on the analyzer (lines 258-261).  Failure paths leave the state
unchanged. -/
noncomputable def calculate_logarithmic_decrement_state
    (s : AnalyzerState) (peaks : List ℕ) :
    Option (ℝ × ℝ × ℝ) × AnalyzerState :=
  if peaks.length < 2 then (none, s)
  else
    match s.processed_data with
    | none => (none, s)
    | some rows =>
      let amps : List ℝ :=
        peaks.map (fun i => ((rows.getD i default).distNorm : ℝ))
      match calculate_logarithmic_decrement amps with
      | none => (none, s)
      | some (d, z, e) =>
        (some (d, z, e),
         { s with log_decrement := some d, damping_ratio := some z,
                  loss_factor := some e })

/-- dekrement.py calculate_period_frequency_improved (lines 269-348),
with the scipy detection cascade abstracted as the detect parameter:
choose the peak source via selectPeaks, estimate period and frequency,
cache them on the analyzer (lines 334-335), then run the decrement
computation on the same peaks (line 342) and return the triple. -/
noncomputable def calculate_period_frequency_improved
    (detect : List ℚ → List ℕ) (s : AnalyzerState) :
    Option (ℚ × ℚ × List ℕ) × AnalyzerState :=
  match s.processed_data with
  | none => (none, s)
  | some rows =>
    let distances := rows.map Row.distNorm
    let timestamps := rows.map Row.timestamp
    let peaks := selectPeaks s.corrected_peaks (detect distances)
    match estimate_period timestamps peaks with
    | none => (none, s)
    | some (avg, freq) =>
      let s1 := { s with current_period := some avg,
                         current_frequency := some freq }
      let s2 := (calculate_logarithmic_decrement_state s1 peaks).2
      (some (avg, freq, peaks), s2)

/-- dekrement.py auto_crop_oscillations (lines 173-212): reset to the
original baseline (the returned flag is ignored by the source), find the
release point at threshold 0.5, fail on the sentinel 0, otherwise crop by
time to the window of the given duration after the release timestamp,
fail if that crop fails, and finally run the period-then-decrement
pipeline and report success together with its result. -/
noncomputable def auto_crop_oscillations
    (detect : List ℚ → List ℕ) (duration_after_start : ℚ)
    (s : AnalyzerState) :
    Bool × Option (ℚ × ℚ × List ℕ) × AnalyzerState :=
  match s.processed_data with
  | none => (false, none, s)
  | some _ =>
    let s1 := (reset_to_original s).2
    let i := find_release_point_state s1 (1/2)
    if i = 0 then (false, none, s1)
    else
      match s1.processed_data with
      | none => (false, none, s1)
      | some rows1 =>
        let t1 := (rows1.getD i default).timestamp
        let c := crop_by_time s1 t1 (t1 + duration_after_start)
        if c.1 = false then (false, none, c.2)
        else
          let pr := calculate_period_frequency_improved detect c.2
          (true, pr.1, pr.2)

/-! ## General helper lemmas -/

/-- With at least two peaks the period estimator always produces a value:
the guard at dekrement.py line 299 is the only absent path. -/
theorem estimate_period_some (ts : List ℚ) (peaks : List ℕ)
    (h : 2 ≤ peaks.length) : ∃ pq, estimate_period ts peaks = some pq := by
  rw [estimate_period, if_neg (by omega)]
  exact ⟨_, rfl⟩

/-! ## C10 -/

/-- C10: the zero-amplitude guard of calculate_logarithmic_decrement
checks only the later amplitude of each pair (dekrement.py line 236).
With amplitudes 0 and 5 at two peaks the single pair passes the guard,
the logarithm is applied to the zero ratio, and the IEEE-semantics
average decrement is negative infinity: the guard does not make the
logarithm total over the non-skipped pairs. -/
theorem zero_amplitude_pair_not_skipped :
    ([(0 : ℝ), 5]).length = 2 ∧
    decrementsE [(0 : ℝ), 5] = [npLogE 0] ∧
    npLogE 0 = ⊥ ∧
    avg_decrementE [(0 : ℝ), 5] = ⊥ ∧
    decrements [(0 : ℝ), 5] ≠ [] := by
  have h1 : decrementsE [(0 : ℝ), 5] = [npLogE 0] := by
    norm_num [decrementsE, List.zip, List.zipWith, List.filterMap]
  have h2 : npLogE 0 = ⊥ := by simp [npLogE]
  refine ⟨rfl, h1, h2, ?_, ?_⟩
  · rw [avg_decrementE, h1, h2]
    norm_num
  · norm_num [decrements, List.zip, List.zipWith, List.filterMap]

/-! ## C4 -/

/-- C4 counterexample: the decrement calculator given exactly 2 peaks is
not always defined — with amplitudes 1 and 0 the single pair is skipped
by the zero guard (dekrement.py line 236), the decrement list is empty
and the result is absent (lines 240-242). -/
theorem decrement_two_peaks_zero_amp_absent :
    calculate_logarithmic_decrement [(1 : ℝ), 0] = none ∧
    ([(1 : ℝ), 0]).length = 2 := by
  constructor
  · have hd : decrements [(1 : ℝ), 0] = [] := by
      norm_num [decrements, List.zip, List.zipWith, List.filterMap]
    rw [calculate_logarithmic_decrement, if_neg (by norm_num)]
    simp [hd]
  · rfl

/-- C4 (amended): both the period estimator and the decrement calculator
are absent at 0 or 1 peak; the period estimator is defined at exactly 2
peaks, and the decrement calculator is defined at exactly 2 peaks
provided the second amplitude is nonzero. -/
theorem peak_count_gate (ts : List ℚ) (peaks : List ℕ) (amps : List ℝ)
    (i j : ℕ) (a b : ℝ) (h1 : peaks.length ≤ 1) (h2 : amps.length ≤ 1)
    (hb : b ≠ 0) :
    estimate_period ts peaks = none ∧
    (estimate_period ts [i, j]).isSome = true ∧
    calculate_logarithmic_decrement amps = none ∧
    (calculate_logarithmic_decrement [a, b]).isSome = true := by
  refine ⟨?_, ?_, ?_, ?_⟩
  · rw [estimate_period, if_pos (by omega)]
  · obtain ⟨pq, hpq⟩ := estimate_period_some ts [i, j] (by simp)
    rw [hpq]; rfl
  · rw [calculate_logarithmic_decrement, if_pos (by omega)]
  · have hd : decrements [a, b] = [Real.log (|a| / |b|)] := by
      simp [decrements, List.zip, List.zipWith, List.filterMap,
        abs_pos.mpr hb]
    rw [calculate_logarithmic_decrement, if_neg (by norm_num)]
    simp [hd]

/-- C4 witness at concrete inputs. -/
theorem peak_count_gate_witness :
    estimate_period [0, 1] [0] = none ∧
    (estimate_period [0, 1] [0, 1]).isSome = true ∧
    calculate_logarithmic_decrement [(1 : ℝ)] = none ∧
    (calculate_logarithmic_decrement [(1 : ℝ), 1]).isSome = true :=
  peak_count_gate [0, 1] [0] [(1 : ℝ)] 0 1 1 1 (by decide) (by decide)
    (by norm_num)

/-! ## C3 -/

/-- C3 counterexample: a stored corrected peak set with fewer than 2
entries is ignored by recomputation — with corrected peaks [0] stored
and a detector producing [0, 1], calculate_period_frequency_improved
returns the detector output [0, 1], not the stored [0]
(dekrement.py line 282 requires len(corrected_peaks) >= 2). -/
theorem short_corrected_peaks_ignored :
    (calculate_period_frequency_improved (fun _ => [0, 1])
        { initState with
            processed_data := some [⟨0, 0, 0⟩, ⟨1, 5, 5⟩],
            corrected_peaks := some [0] }).1.map (fun r => r.2.2) =
      some [0, 1] ∧ [0, 1] ≠ [(0 : ℕ)] := by
  have hsel : selectPeaks (some [0]) [0, 1] = [0, 1] := by
    rw [selectPeaks]; norm_num
  have hest : ∃ pq, estimate_period
      ([⟨0, 0, 0⟩, ⟨1, 5, 5⟩].map Row.timestamp) [0, 1] = some pq :=
    estimate_period_some _ _ (by simp)
  obtain ⟨pq, hpq⟩ := hest
  constructor
  · simp only [calculate_period_frequency_improved, initState, hsel, hpq]
    rfl
  · simp

/-- C3 (amended): whenever the stored corrected peak set holds at least 2
indices, recomputation uses exactly those indices verbatim, never the
output of algorithmic detection; a stored set with fewer than 2 indices
is ignored in favour of detection. -/
theorem corrected_peaks_used_verbatim (detect : List ℚ → List ℕ)
    (s : AnalyzerState) (rows : List Row) (cp : List ℕ)
    (hs : s.processed_data = some rows) (hcp : s.corrected_peaks = some cp)
    (h2 : 2 ≤ cp.length) :
    selectPeaks s.corrected_peaks (detect (rows.map Row.distNorm)) = cp ∧
    (calculate_period_frequency_improved detect s).1.map (fun r => r.2.2) =
      some cp := by
  have hsel : ∀ det : List ℕ, selectPeaks s.corrected_peaks det = cp := by
    intro det; rw [hcp, selectPeaks, if_pos h2]
  refine ⟨hsel _, ?_⟩
  obtain ⟨pq, hpq⟩ :=
    estimate_period_some (rows.map Row.timestamp) cp h2
  simp only [calculate_period_frequency_improved, hs, hsel, hpq]
  rfl

/-- C3 witness at concrete inputs. -/
theorem corrected_peaks_used_verbatim_witness :
    selectPeaks (some [2, 5, 9]) ((fun _ => [0, 1])
      (([⟨0,0,0⟩, ⟨1,1,1⟩, ⟨2,0,0⟩, ⟨3,1,1⟩, ⟨4,0,0⟩, ⟨5,1,1⟩,
         ⟨6,0,0⟩, ⟨7,1,1⟩, ⟨8,0,0⟩, ⟨9,1,1⟩] : List Row).map Row.distNorm)) =
      [2, 5, 9] ∧
    (calculate_period_frequency_improved (fun _ => [0, 1])
        { initState with
            processed_data := some [⟨0,0,0⟩, ⟨1,1,1⟩, ⟨2,0,0⟩, ⟨3,1,1⟩,
              ⟨4,0,0⟩, ⟨5,1,1⟩, ⟨6,0,0⟩, ⟨7,1,1⟩, ⟨8,0,0⟩, ⟨9,1,1⟩],
            corrected_peaks := some [2, 5, 9] }).1.map (fun r => r.2.2) =
      some [2, 5, 9] :=
  corrected_peaks_used_verbatim (fun _ => [0, 1])
    { initState with
        processed_data := some [⟨0,0,0⟩, ⟨1,1,1⟩, ⟨2,0,0⟩, ⟨3,1,1⟩,
          ⟨4,0,0⟩, ⟨5,1,1⟩, ⟨6,0,0⟩, ⟨7,1,1⟩, ⟨8,0,0⟩, ⟨9,1,1⟩],
        corrected_peaks := some [2, 5, 9] }
    [⟨0,0,0⟩, ⟨1,1,1⟩, ⟨2,0,0⟩, ⟨3,1,1⟩, ⟨4,0,0⟩, ⟨5,1,1⟩,
     ⟨6,0,0⟩, ⟨7,1,1⟩, ⟨8,0,0⟩, ⟨9,1,1⟩]
    [2, 5, 9] rfl rfl (by decide)

/-! ## C5 -/

/-- C5: with at least 3 periods the estimator keeps exactly the periods
inside the interquartile band [Q1 - 1.5 IQR, Q3 + 1.5 IQR]; with fewer
it keeps all of them; and on the period list [1, 1, 1, 1, 5] the filter
excludes 5 and the reported mean period (with frequency) is 1. -/
theorem iqr_outlier_filter (ps qs : List ℚ) (p : ℚ)
    (h3 : 3 ≤ ps.length) (hq : qs.length < 3) :
    (p ∈ filter_outliers ps ↔
      p ∈ ps ∧ lower_bound ps ≤ p ∧ p ≤ upper_bound ps) ∧
    filter_outliers qs = qs ∧
    filter_outliers [1, 1, 1, 1, 5] = [1, 1, 1, 1] ∧
    estimate_period [0, 1, 2, 3, 4, 9] [0, 1, 2, 3, 4, 5] = some (1, 1) := by
  have hfilter : filter_outliers [1, 1, 1, 1, 5] = [1, 1, 1, 1] := by
    have hQ1 : percentile [1, 1, 1, 1, 5] 25 = 1 := by
      norm_num [percentile, sortedAsc, List.insertionSort, List.orderedInsert]
    have hQ3 : percentile [1, 1, 1, 1, 5] 75 = 1 := by
      norm_num [percentile, sortedAsc, List.insertionSort, List.orderedInsert]
      rfl
    have hlb : lower_bound [1, 1, 1, 1, 5] = 1 := by
      rw [lower_bound, hQ1, hQ3]; norm_num
    have hub : upper_bound [1, 1, 1, 1, 5] = 1 := by
      rw [upper_bound, hQ1, hQ3]; norm_num
    simp [filter_outliers, hlb, hub, List.filter]
  refine ⟨?_, ?_, hfilter, ?_⟩
  · rw [filter_outliers, if_pos h3]
    simp [List.mem_filter, and_assoc]
  · rw [filter_outliers, if_neg (by omega)]
  · have hp : periodsOf [0, 1, 2, 3, 4, 9] [0, 1, 2, 3, 4, 5] =
        [1, 1, 1, 1, 5] := by
      norm_num [periodsOf, List.zip, List.zipWith]
    rw [estimate_period]
    simp only [hp, hfilter]
    have hne : ([1, 1, 1, 1] : List ℚ) ≠ [] := by simp
    rw [if_neg (by norm_num), if_neg hne]
    norm_num [List.sum_cons]

/-- C5 witness at concrete inputs. -/
theorem iqr_outlier_filter_witness :
    ((5 : ℚ) ∈ filter_outliers [1, 1, 1, 1, 5] ↔
      (5 : ℚ) ∈ [(1 : ℚ), 1, 1, 1, 5] ∧
      lower_bound [1, 1, 1, 1, 5] ≤ 5 ∧
      (5 : ℚ) ≤ upper_bound [1, 1, 1, 1, 5]) ∧
    filter_outliers [(2 : ℚ), 7] = [(2 : ℚ), 7] ∧
    filter_outliers [1, 1, 1, 1, 5] = [1, 1, 1, 1] ∧
    estimate_period [0, 1, 2, 3, 4, 9] [0, 1, 2, 3, 4, 5] = some (1, 1) :=
  iqr_outlier_filter [1, 1, 1, 1, 5] [(2 : ℚ), 7] 5 (by decide) (by decide)

/-! ## C1 -/

/-- One unfolding step of the decrement list when the later amplitude is
nonzero. -/
theorem decrements_cons_cons (a b : ℝ) (l : List ℝ) (hb : b ≠ 0) :
    decrements (a :: b :: l) =
      Real.log (|a| / |b|) :: decrements (b :: l) := by
  simp [decrements, List.filterMap_cons, hb]

/-- Along a sequence with constant ratio r between consecutive
amplitudes, every pair contributes exactly log r. -/
theorem decrements_const_ratio (r : ℝ) (hr : 0 < r) :
    ∀ amps : List ℝ, List.Chain' (fun x y => x = r * y) amps →
      (∀ x ∈ amps, x ≠ 0) →
      decrements amps = List.replicate (amps.length - 1) (Real.log r)
  | [], _, _ => by simp [decrements]
  | [a], _, _ => by simp [decrements]
  | a :: b :: rest, hch, hnz => by
    have hab : a = r * b := (List.chain'_cons.mp hch).1
    have hch2 := (List.chain'_cons.mp hch).2
    have hb : b ≠ 0 := hnz b (by simp)
    have hratio : |a| / |b| = r := by
      rw [hab, abs_mul, abs_of_pos hr, mul_div_assoc,
        div_self (abs_ne_zero.mpr hb), mul_one]
    have ih := decrements_const_ratio r hr (b :: rest) hch2
      (fun x hx => hnz x (by simp [hx]))
    rw [decrements_cons_cons a b rest hb, ih, hratio]
    simp [List.replicate_succ]

/-- C1 (confirmed): for at least 2 peaks whose amplitudes decay with a
constant ratio r above 1 between consecutive peaks, the computed average
decrement is exactly log r, the damping ratio is
log r / sqrt(4 pi^2 + (log r)^2), the loss factor is twice the damping
ratio, and the damping ratio lies in [0, 1) (here the positive decrements
log r range over all positive reals as r ranges over (1, infinity)). -/
theorem decrement_constant_ratio (amps : List ℝ) (r : ℝ) (hr : 1 < r)
    (hlen : 2 ≤ amps.length) (hnz : ∀ x ∈ amps, x ≠ 0)
    (hchain : List.Chain' (fun x y => x = r * y) amps) :
    calculate_logarithmic_decrement amps =
      some (Real.log r, dampingRatioOf (Real.log r),
        2 * dampingRatioOf (Real.log r)) ∧
    0 ≤ dampingRatioOf (Real.log r) ∧ dampingRatioOf (Real.log r) < 1 := by
  have hr0 : (0 : ℝ) < r := lt_trans zero_lt_one hr
  have hd := decrements_const_ratio r hr0 amps hchain hnz
  refine ⟨?_, ?_, ?_⟩
  · rw [calculate_logarithmic_decrement, if_neg (by omega)]
    simp only [hd]
    have hne : List.replicate (amps.length - 1) (Real.log r) ≠ [] := by
      apply List.ne_nil_of_length_pos
      simp
      omega
    rw [if_neg hne]
    have hsum : (List.replicate (amps.length - 1) (Real.log r)).sum =
        ((amps.length - 1 : ℕ) : ℝ) * Real.log r := by
      simp [List.sum_replicate, nsmul_eq_mul]
    have hcast : ((amps.length - 1 : ℕ) : ℝ) ≠ 0 :=
      Nat.cast_ne_zero.mpr (by omega)
    rw [hsum, List.length_replicate, mul_div_cancel_left₀ _ hcast]
  · exact div_nonneg (Real.log_nonneg hr.le) (Real.sqrt_nonneg _)
  · have hlog : 0 < Real.log r := Real.log_pos hr
    have hpi := Real.pi_pos
    have hlt : Real.log r < Real.sqrt (4 * Real.pi ^ 2 + Real.log r ^ 2) := by
      calc Real.log r = Real.sqrt (Real.log r ^ 2) :=
            (Real.sqrt_sq hlog.le).symm
        _ < Real.sqrt (4 * Real.pi ^ 2 + Real.log r ^ 2) :=
            Real.sqrt_lt_sqrt (by positivity) (by nlinarith)
    rw [dampingRatioOf, div_lt_one (by positivity)]
    exact hlt

/-- C1 witness at the concrete amplitudes 4, 2, 1 with ratio 2. -/
theorem decrement_constant_ratio_witness :
    calculate_logarithmic_decrement [(4 : ℝ), 2, 1] =
      some (Real.log 2, dampingRatioOf (Real.log 2),
        2 * dampingRatioOf (Real.log 2)) ∧
    0 ≤ dampingRatioOf (Real.log 2) ∧ dampingRatioOf (Real.log 2) < 1 :=
  decrement_constant_ratio [(4 : ℝ), 2, 1] 2 (by norm_num) (by decide)
    (by norm_num) (by norm_num [List.chain'_cons])

/-! ## C2 -/

/-- C2 counterexample: a crop-by-time call whose bounds lie outside the
data fails (dekrement.py lines 103-105) and does not clear the derived
state — after load, normalize and a manual peak correction, the failed
crop leaves the stored corrected peak set visible. -/
theorem stale_after_failed_crop_by_time :
    (crop_by_time
        (manual_peak_correction
          (normalize_data (load_csv [⟨0, 10, 0⟩, ⟨1, 15, 0⟩] initState).2).2
          [0, 1])
        100 200).1 = false ∧
    (crop_by_time
        (manual_peak_correction
          (normalize_data (load_csv [⟨0, 10, 0⟩, ⟨1, 15, 0⟩] initState).2).2
          [0, 1])
        100 200).2.corrected_peaks = some [0, 1] ∧
    some [(0 : ℕ), 1] ≠ none := by
  refine ⟨rfl, rfl, by simp⟩

/-- C2 (amended): every successful normalize, reset, crop-by-index or
crop-by-time call clears the corrected peak set, period, frequency,
decrement, damping ratio and loss factor; an unsuccessful call leaves
the analyzer state entirely unchanged (so a failed crop-by-time keeps
previously computed results visible). -/
theorem mutations_clear_derived_state (s : AnalyzerState) (a b : ℤ)
    (t1 t2 : ℚ) :
    ((normalize_data s).1 = true → derivedCleared (normalize_data s).2) ∧
    ((normalize_data s).1 = false → (normalize_data s).2 = s) ∧
    ((reset_to_original s).1 = true →
      derivedCleared (reset_to_original s).2) ∧
    ((reset_to_original s).1 = false → (reset_to_original s).2 = s) ∧
    ((crop_by_points s a b).1 = true →
      derivedCleared (crop_by_points s a b).2) ∧
    ((crop_by_points s a b).1 = false → (crop_by_points s a b).2 = s) ∧
    ((crop_by_time s t1 t2).1 = true →
      derivedCleared (crop_by_time s t1 t2).2) ∧
    ((crop_by_time s t1 t2).1 = false → (crop_by_time s t1 t2).2 = s) := by
  have hcrop : ∀ c d : ℤ,
      ((crop_by_points s c d).1 = true →
        derivedCleared (crop_by_points s c d).2) ∧
      ((crop_by_points s c d).1 = false → (crop_by_points s c d).2 = s) := by
    intro c d
    cases hp : s.processed_data <;> simp [crop_by_points, hp, derivedCleared]
  have hnorm :
      ((normalize_data s).1 = true → derivedCleared (normalize_data s).2) ∧
      ((normalize_data s).1 = false → (normalize_data s).2 = s) := by
    cases hd : s.data <;> simp [normalize_data, hd, derivedCleared]
  have hreset :
      ((reset_to_original s).1 = true →
        derivedCleared (reset_to_original s).2) ∧
      ((reset_to_original s).1 = false → (reset_to_original s).2 = s) := by
    cases ho : s.original_processed_data <;>
      simp [reset_to_original, ho, derivedCleared]
  have htime :
      ((crop_by_time s t1 t2).1 = true →
        derivedCleared (crop_by_time s t1 t2).2) ∧
      ((crop_by_time s t1 t2).1 = false → (crop_by_time s t1 t2).2 = s) := by
    cases hp : s.processed_data with
    | none => simp [crop_by_time, hp]
    | some rows =>
      cases hfi : rows.findIdx? (fun r => decide (t1 ≤ r.timestamp)) with
      | none => simp [crop_by_time, hp, hfi]
      | some i =>
        cases hfk :
            rows.reverse.findIdx? (fun r => decide (r.timestamp ≤ t2)) with
        | none => simp [crop_by_time, hp, hfi, hfk]
        | some k =>
          simpa only [crop_by_time, hp, hfi, hfk] using
            hcrop (i : ℤ) ((rows.length - 1 - k : ℕ) : ℤ)
  exact ⟨hnorm.1, hnorm.2, hreset.1, hreset.2, (hcrop a b).1, (hcrop a b).2,
    htime.1, htime.2⟩

/-- C2 witness at the fresh analyzer state and concrete crop bounds. -/
theorem mutations_clear_derived_state_witness :
    ((normalize_data initState).1 = true →
      derivedCleared (normalize_data initState).2) ∧
    ((normalize_data initState).1 = false →
      (normalize_data initState).2 = initState) ∧
    ((reset_to_original initState).1 = true →
      derivedCleared (reset_to_original initState).2) ∧
    ((reset_to_original initState).1 = false →
      (reset_to_original initState).2 = initState) ∧
    ((crop_by_points initState 0 1).1 = true →
      derivedCleared (crop_by_points initState 0 1).2) ∧
    ((crop_by_points initState 0 1).1 = false →
      (crop_by_points initState 0 1).2 = initState) ∧
    ((crop_by_time initState 0 1).1 = true →
      derivedCleared (crop_by_time initState 0 1).2) ∧
    ((crop_by_time initState 0 1).1 = false →
      (crop_by_time initState 0 1).2 = initState) :=
  mutations_clear_derived_state initState 0 1 0 1

/-! ## C6 -/

/-- The scanning loop returns the sentinel 0 when no scanned window
exceeds the threshold. -/
theorem releaseScan_eq_zero (ds : List ℚ) (t : ℚ) :
    ∀ l : List ℕ, (∀ j ∈ l, windowSpread ds j ≤ t) → releaseScan ds t l = 0
  | [], _ => rfl
  | i :: rest, h => by
    rw [releaseScan, if_neg (not_lt.mpr (h i (by simp)))]
    exact releaseScan_eq_zero ds t rest (fun j hj => h j (by simp [hj]))

/-- The scanning loop over the ascending index range returns i - 5 for
the first qualifying index i of the range. -/
theorem releaseScan_first (ds : List ℚ) (t : ℚ) :
    ∀ (k a i : ℕ), a ≤ i → i < a + k → t < windowSpread ds i →
      (∀ j, a ≤ j → j < i → windowSpread ds j ≤ t) →
      releaseScan ds t (List.range' a k) = i - 5
  | 0, _, i, h1, h2, _, _ => absurd h2 (by omega)
  | k + 1, a, i, h1, h2, hq, hmin => by
    by_cases hia : i = a
    · subst hia
      show releaseScan ds t (i :: List.range' (i + 1) k) = i - 5
      rw [releaseScan, if_pos hq]
    · have hai : a < i := by omega
      show releaseScan ds t (a :: List.range' (a + 1) k) = i - 5
      rw [releaseScan, if_neg (not_lt.mpr (hmin a le_rfl hai))]
      exact releaseScan_first ds t k (a + 1) i (by omega) (by omega) hq
        (fun j hj hji => hmin j (by omega) hji)

/-- C6 counterexample: on 15 zero samples followed by a single jump to 1,
the only window of 10 consecutive samples whose spread exceeds the
threshold 1/2 starts at index 6 (every earlier window, index 0
included, stays flat), so the claimed return value is
max(0, 6-5) = 1 — but find_release_point scans only python
range(1, n-10) = [1..5] and returns the sentinel 0. -/
theorem release_point_tail_window_missed :
    find_release_point [0,0,0,0,0,0,0,0,0,0,0,0,0,0,0,1] (1/2) = 0 ∧
    (1/2 : ℚ) < windowSpread [0,0,0,0,0,0,0,0,0,0,0,0,0,0,0,1] 6 ∧
    (∀ j, j < 6 → windowSpread [0,0,0,0,0,0,0,0,0,0,0,0,0,0,0,1] j ≤ 1/2) ∧
    max 0 (6 - 5) = 1 ∧ (0 : ℕ) ≠ 1 := by
  have hflat : ∀ j, j < 6 →
      windowSpread [0,0,0,0,0,0,0,0,0,0,0,0,0,0,0,1] j ≤ 1/2 := by
    intro j hj
    interval_cases j <;>
      norm_num [windowSpread, scanWindow, listMax, listMin, List.foldl,
        max_def, min_def]
  refine ⟨?_, ?_, hflat, by decide, by decide⟩
  · rw [find_release_point]
    apply releaseScan_eq_zero
    intro j hj
    have hj6 : j < 6 := by
      have hm := List.mem_range'_1.mp hj
      simp only [List.length_cons, List.length_nil] at hm
      omega
    exact hflat j hj6
  · norm_num [windowSpread, scanWindow, listMax, listMin, List.foldl,
      max_def, min_def]

/-- C6 (amended): find_release_point returns max(0, i-5) for the first
index i in the scanned range [1, n-11] whose 10-sample window spread
exceeds the threshold, and the sentinel 0 when no index in that range
qualifies; windows starting at index 0 or after n-11 are never
examined. -/
theorem find_release_point_scan_range (ds es : List ℚ) (t u : ℚ) (i : ℕ)
    (h1 : 1 ≤ i) (h2 : i + 11 ≤ ds.length)
    (hq : t < windowSpread ds i)
    (hmin : ∀ j, j < i → 1 ≤ j → windowSpread ds j ≤ t)
    (hnone : ∀ j, j < es.length → 1 ≤ j → j + 11 ≤ es.length →
      windowSpread es j ≤ u) :
    find_release_point ds t = i - 5 ∧ find_release_point es u = 0 := by
  constructor
  · rw [find_release_point]
    exact releaseScan_first ds t (ds.length - 11) 1 i h1 (by omega) hq
      (fun j hj hji => hmin j hji hj)
  · rw [find_release_point]
    apply releaseScan_eq_zero
    intro j hj
    have hm := List.mem_range'_1.mp hj
    exact hnone j (by omega) (by omega) (by omega)

/-- C6 witness: a jump inside the scanned range at index 6 of a series of
length 17 is found and reported as 6 - 5 = 1; a flat series of length 12
yields the sentinel 0. -/
theorem find_release_point_scan_range_witness :
    find_release_point [0,0,0,0,0,0,0,0,0,0,0,0,0,0,0,1,0] (1/2) = 6 - 5 ∧
    find_release_point [0,0,0,0,0,0,0,0,0,0,0,0] (1/4) = 0 :=
  find_release_point_scan_range [0,0,0,0,0,0,0,0,0,0,0,0,0,0,0,1,0]
    [0,0,0,0,0,0,0,0,0,0,0,0] (1/2) (1/4) 6 (by decide) (by decide)
    (by norm_num [windowSpread, scanWindow, listMax, listMin, List.foldl,
      max_def, min_def])
    (by
      intro j hj hj1
      interval_cases j <;>
        norm_num [windowSpread, scanWindow, listMax, listMin, List.foldl,
          max_def, min_def])
    (by
      intro j hj hj1 hj11
      simp only [List.length_cons, List.length_nil] at hj hj11
      interval_cases j <;>
        norm_num [windowSpread, scanWindow, listMax, listMin, List.foldl,
          max_def, min_def])

/-! ## C7 -/

/-- C7 (confirmed): for an active series of length at least 2 and valid
bounds (0 <= start, start + 1 <= end <= n - 1), crop_by_points replaces
the active series with the inclusive sub-range, records exactly the
absolute [start, end] as provenance, the cropped rows form a sublist of
the pre-crop rows (so the timestamp range is a subset of the pre-crop
range), and the cropped length is end - start + 1; for arbitrary bounds
the recorded provenance is the clamp of start to [0, n-1] and of end to
max(start+1, min(end, n-1)). -/
theorem crop_by_points_spec (s : AnalyzerState) (rows : List Row)
    (a b c d : ℤ)
    (hs : s.processed_data = some rows) (h2 : 2 ≤ rows.length)
    (ha : 0 ≤ a) (hab : a + 1 ≤ b) (hb : b ≤ (rows.length : ℤ) - 1) :
    (crop_by_points s a b).2.processed_data =
      some ((rows.drop a.toNat).take (b.toNat + 1 - a.toNat)) ∧
    (crop_by_points s a b).2.oscillation_start = a.toNat ∧
    (crop_by_points s a b).2.oscillation_end = b.toNat ∧
    ((rows.drop a.toNat).take (b.toNat + 1 - a.toNat)).Sublist rows ∧
    ((rows.drop a.toNat).take (b.toNat + 1 - a.toNat)).length =
      b.toNat - a.toNat + 1 ∧
    (∀ r ∈ (rows.drop a.toNat).take (b.toNat + 1 - a.toNat), r ∈ rows) ∧
    (crop_by_points s c d).2.oscillation_start =
      (max 0 (min c ((rows.length : ℤ) - 1))).toNat ∧
    (crop_by_points s c d).2.oscillation_end =
      (max (max 0 (min c ((rows.length : ℤ) - 1)) + 1)
        (min d ((rows.length : ℤ) - 1))).toNat := by
  have hstart : max 0 (min a ((rows.length : ℤ) - 1)) = a := by
    rw [min_eq_left (by omega), max_eq_right ha]
  have hend : max (a + 1) (min b ((rows.length : ℤ) - 1)) = b := by
    rw [min_eq_left hb, max_eq_right hab]
  have hsub : ((rows.drop a.toNat).take (b.toNat + 1 - a.toNat)).Sublist
      rows :=
    (List.take_sublist _ _).trans (List.drop_sublist _ _)
  have hlen : ((rows.drop a.toNat).take (b.toNat + 1 - a.toNat)).length =
      b.toNat - a.toNat + 1 := by
    rw [List.length_take, List.length_drop]
    omega
  refine ⟨?_, ?_, ?_, hsub, hlen, fun r hr => hsub.subset hr, ?_, ?_⟩ <;>
    simp only [crop_by_points, hs, hstart, hend]

/-- C7 witness: cropping the 3-row series at bounds (0, 2), together with
the clamped provenance of the out-of-range request (5, -3). -/
theorem crop_by_points_spec_witness :
    (crop_by_points
        { initState with
            processed_data := some [⟨0, 1, 0⟩, ⟨1, 2, 1⟩, ⟨2, 3, 2⟩] }
        0 2).2.processed_data =
      some [⟨0, 1, 0⟩, ⟨1, 2, 1⟩, ⟨2, 3, 2⟩] ∧
    (crop_by_points
        { initState with
            processed_data := some [⟨0, 1, 0⟩, ⟨1, 2, 1⟩, ⟨2, 3, 2⟩] }
        0 2).2.oscillation_start = 0 ∧
    (crop_by_points
        { initState with
            processed_data := some [⟨0, 1, 0⟩, ⟨1, 2, 1⟩, ⟨2, 3, 2⟩] }
        0 2).2.oscillation_end = 2 ∧
    ([⟨0, 1, 0⟩, ⟨1, 2, 1⟩, ⟨2, 3, 2⟩] : List Row).Sublist
      [⟨0, 1, 0⟩, ⟨1, 2, 1⟩, ⟨2, 3, 2⟩] ∧
    ([⟨0, 1, 0⟩, ⟨1, 2, 1⟩, ⟨2, 3, 2⟩] : List Row).length = 3 ∧
    (∀ r ∈ ([⟨0, 1, 0⟩, ⟨1, 2, 1⟩, ⟨2, 3, 2⟩] : List Row),
      r ∈ ([⟨0, 1, 0⟩, ⟨1, 2, 1⟩, ⟨2, 3, 2⟩] : List Row)) ∧
    (crop_by_points
        { initState with
            processed_data := some [⟨0, 1, 0⟩, ⟨1, 2, 1⟩, ⟨2, 3, 2⟩] }
        5 (-3)).2.oscillation_start = 2 ∧
    (crop_by_points
        { initState with
            processed_data := some [⟨0, 1, 0⟩, ⟨1, 2, 1⟩, ⟨2, 3, 2⟩] }
        5 (-3)).2.oscillation_end = 3 :=
  crop_by_points_spec
    { initState with
        processed_data := some [⟨0, 1, 0⟩, ⟨1, 2, 1⟩, ⟨2, 3, 2⟩] }
    [⟨0, 1, 0⟩, ⟨1, 2, 1⟩, ⟨2, 3, 2⟩] 0 2 5 (-3) rfl (by decide) (by decide)
    (by decide) (by decide)

/-! ## C9 -/

/-- C9 (confirmed): normalize followed by reset-to-original leaves the
active series exactly equal to the series produced by normalizing fresh
from the loaded data, with normalized_distance[i] =
distance[i] - distance[0] at every index. -/
theorem normalize_reset_roundtrip (s : AnalyzerState) (rows : List Row)
    (i : ℕ) (hd : s.data = some rows) (hne : rows ≠ [])
    (hi : i < rows.length) :
    (reset_to_original (normalize_data s).2).2.processed_data =
      (normalize_data s).2.processed_data ∧
    (reset_to_original (normalize_data s).2).2.processed_data =
      some (normalizeRows rows) ∧
    ((normalizeRows rows).getD i default).distNorm =
      (rows.getD i default).dist - (rows.getD 0 default).dist := by
  have hpos : 0 < rows.length := List.length_pos.mpr hne
  refine ⟨?_, ?_, ?_⟩
  · simp only [normalize_data, hd, reset_to_original]
  · simp only [normalize_data, hd, reset_to_original]
  · have himap : i < (normalizeRows rows).length := by
      simpa [normalizeRows] using hi
    rw [List.getD_eq_getElem _ _ himap, List.getD_eq_getElem _ _ hi,
      List.getD_eq_getElem _ _ hpos]
    simp only [normalizeRows, List.getElem_map]
    cases rows with
    | nil => exact absurd rfl hne
    | cons r t => rfl

/-- C9 witness on a concrete two-row load. -/
theorem normalize_reset_roundtrip_witness :
    (reset_to_original (normalize_data
        { initState with
            data := some [⟨0, 10, 0⟩, ⟨1, 15, 0⟩] }).2).2.processed_data =
      (normalize_data
        { initState with
            data := some [⟨0, 10, 0⟩, ⟨1, 15, 0⟩] }).2.processed_data ∧
    (reset_to_original (normalize_data
        { initState with
            data := some [⟨0, 10, 0⟩, ⟨1, 15, 0⟩] }).2).2.processed_data =
      some (normalizeRows [⟨0, 10, 0⟩, ⟨1, 15, 0⟩]) ∧
    ((normalizeRows [⟨0, 10, 0⟩, ⟨1, 15, 0⟩]).getD 1 default).distNorm =
      (([⟨0, 10, 0⟩, ⟨1, 15, 0⟩] : List Row).getD 1 default).dist -
      (([⟨0, 10, 0⟩, ⟨1, 15, 0⟩] : List Row).getD 0 default).dist :=
  normalize_reset_roundtrip
    { initState with data := some [⟨0, 10, 0⟩, ⟨1, 15, 0⟩] }
    [⟨0, 10, 0⟩, ⟨1, 15, 0⟩] 1 rfl (by decide) (by decide)

/-! ## C8 -/

/-- C8 (confirmed): auto_crop_oscillations first resets to the original
baseline and finds the release point on the reset series; it reports
failure exactly when that release point is the sentinel 0 or the
subsequent crop to [releaseTime, releaseTime + duration] fails, a failed
run carries no result triple, and on success it returns the success flag
together with the output and state of the period-then-decrement pipeline
run on the cropped series. -/
theorem auto_crop_oscillations_spec (detect : List ℚ → List ℕ) (d : ℚ)
    (s : AnalyzerState) (rows rows1 : List Row) (i : ℕ) (t1 : ℚ)
    (hs : s.processed_data = some rows)
    (hs1 : (reset_to_original s).2.processed_data = some rows1)
    (hi : i = find_release_point_state (reset_to_original s).2 (1/2))
    (ht1 : t1 = (rows1.getD i default).timestamp) :
    ((auto_crop_oscillations detect d s).1 = false ↔
      i = 0 ∨ (crop_by_time (reset_to_original s).2 t1 (t1 + d)).1 = false) ∧
    ((auto_crop_oscillations detect d s).1 = false →
      (auto_crop_oscillations detect d s).2.1 = none) ∧
    (i ≠ 0 → (crop_by_time (reset_to_original s).2 t1 (t1 + d)).1 = true →
      auto_crop_oscillations detect d s =
        (true,
         (calculate_period_frequency_improved detect
           (crop_by_time (reset_to_original s).2 t1 (t1 + d)).2).1,
         (calculate_period_frequency_improved detect
           (crop_by_time (reset_to_original s).2 t1 (t1 + d)).2).2)) := by
  subst hi
  subst ht1
  simp only [auto_crop_oscillations, hs, hs1]
  generalize find_release_point_state (reset_to_original s).2 (1/2) = n
  generalize crop_by_time (reset_to_original s).2
      ((rows1.getD n default).timestamp)
      ((rows1.getD n default).timestamp + d) = c
  by_cases hn : n = 0
  · simp [hn]
  · by_cases hc : c.1 = false
    · simp [hn, hc]
    · simp [hn, hc]

/-- C8 witness: on a single-sample session (release point not found, so
the sentinel 0 is returned) the automatic crop reports failure with no
result triple. -/
theorem auto_crop_oscillations_spec_witness :
    ((auto_crop_oscillations (fun _ => []) 1
        { initState with processed_data := some [⟨0, 0, 0⟩] }).1 = false ↔
      0 = 0 ∨ (crop_by_time
        (reset_to_original
          { initState with processed_data := some [⟨0, 0, 0⟩] }).2
        0 (0 + 1)).1 = false) ∧
    ((auto_crop_oscillations (fun _ => []) 1
        { initState with processed_data := some [⟨0, 0, 0⟩] }).1 = false →
      (auto_crop_oscillations (fun _ => []) 1
        { initState with processed_data := some [⟨0, 0, 0⟩] }).2.1 =
        none) ∧
    ((0 : ℕ) ≠ 0 → (crop_by_time
        (reset_to_original
          { initState with processed_data := some [⟨0, 0, 0⟩] }).2
        0 (0 + 1)).1 = true →
      auto_crop_oscillations (fun _ => []) 1
          { initState with processed_data := some [⟨0, 0, 0⟩] } =
        (true,
         (calculate_period_frequency_improved (fun _ => [])
           (crop_by_time
             (reset_to_original
               { initState with processed_data := some [⟨0, 0, 0⟩] }).2
             0 (0 + 1)).2).1,
         (calculate_period_frequency_improved (fun _ => [])
           (crop_by_time
             (reset_to_original
               { initState with processed_data := some [⟨0, 0, 0⟩] }).2
             0 (0 + 1)).2).2)) :=
  auto_crop_oscillations_spec (fun _ => []) 1
    { initState with processed_data := some [⟨0, 0, 0⟩] }
    [⟨0, 0, 0⟩] [⟨0, 0, 0⟩] 0 0 rfl rfl rfl rfl
